import Mathlib

/-!
Key-value storage with per-entry TTL and lazy cleanup.

Shallow embedding of `src/main.go`.

* Instants (`time.Time`) and durations (`time.Duration`) are integers counted
  in nanoseconds.  `time.Now()` is an explicit argument `now` of every
  operation that reads the clock, `t.Add(d)` is `t + d` and `t.Before(u)` is
  `t < u`.
* A Go `map[string]T` is an association list with at most the first binding
  of a key visible; `m[k] = v` removes the old binding and puts the new one in
  front, `delete(m, k)` removes every binding of `k`.
* A send on the `cleanup` channel is an output of `Get` (the field `sent`);
  the worker loop `startCleanupRoutine` is a function of the sequence of
  signals it receives.  In `step` and `run` the read/write lock is not
  represented: every operation is one atomic step.
* For concurrent reads, `Sys` and `sysStep` represent the goroutines, the
  read/write lock and the unbuffered channel explicitly.
-/

namespace KVStore

/-- Payload of type `interface{}`: the nil interface or a dynamic value. -/
inductive Value (α : Type) where
  | nil : Value α
  | val (a : α) : Value α
  deriving DecidableEq, Repr

/-- Go `map[string]β` as an association list. -/
abbrev GoMap (β : Type) := List (String × β)

/-- The read `v, ok := m[key]`: `some v` when `ok`, `none` otherwise. -/
def mapLookup {β : Type} : GoMap β → String → Option β
  | [], _ => none
  | (k, v) :: rest, key => if k = key then some v else mapLookup rest key

/-- The builtin `delete(m, key)`. -/
def mapDelete {β : Type} : GoMap β → String → GoMap β
  | [], _ => []
  | (k, v) :: rest, key =>
    if k = key then mapDelete rest key else (k, v) :: mapDelete rest key

/-- The assignment `m[key] = v`. -/
def mapStore {β : Type} (m : GoMap β) (key : String) (v : β) : GoMap β :=
  (key, v) :: mapDelete m key

/-- The builtin `len(m)`. -/
def mapLen {β : Type} (m : GoMap β) : Nat := m.length

/-- The two mappings of `type KeyValueStorage struct`. -/
structure KeyValueStorage (α : Type) where
  data : GoMap (Value α)
  expiry : GoMap Int
  deriving DecidableEq, Repr

/-- What one call of `Get` produces: the returned interface value, the key it
sent on the `cleanup` channel (if any) and the storage when it returns. -/
structure GetResult (α : Type) where
  value : Value α
  sent : Option String
  store : KeyValueStorage α
  deriving DecidableEq, Repr

/-- The mappings made by `NewKeyValueStorage`. -/
def NewKeyValueStorage {α : Type} : KeyValueStorage α :=
  { data := [], expiry := [] }

namespace KeyValueStorage

variable {α : Type}

/-- Method `Set` of `src/main.go`, executed when the clock reads `now`. -/
def Set (s : KeyValueStorage α) (now : Int) (key : String) (value : Value α)
    (ttl : Int) : KeyValueStorage α :=
  let data := mapStore s.data key value
  if ttl > 0 then
    { data := data, expiry := mapStore s.expiry key (now + ttl) }
  else
    { data := data, expiry := s.expiry }

/-- Method `Get` of `src/main.go`, executed when the clock reads `now`. -/
def Get (s : KeyValueStorage α) (now : Int) (key : String) : GetResult α :=
  match mapLookup s.data key with
  | none => { value := Value.nil, sent := none, store := s }
  | some value =>
    match mapLookup s.expiry key with
    | some expiry =>
      if expiry < now then
        { value := Value.nil, sent := some key, store := s }
      else
        { value := value, sent := none, store := s }
    | none => { value := value, sent := none, store := s }

/-- Method `Delete` of `src/main.go`. -/
def Delete (s : KeyValueStorage α) (key : String) : KeyValueStorage α :=
  { data := mapDelete s.data key, expiry := mapDelete s.expiry key }

end KeyValueStorage

/-- What the worker's `select` can receive. -/
inductive Signal where
  | cleanup (key : String) : Signal
  | shutdown : Signal
  deriving DecidableEq, Repr

/-- The loop of `startCleanupRoutine`, run on the signals it receives in
order: a key from `cleanup` is deleted, a value from `shutdown` ends the loop. -/
def startCleanupRoutine {α : Type} (s : KeyValueStorage α) :
    List Signal → KeyValueStorage α
  | [] => s
  | Signal.cleanup key :: rest => startCleanupRoutine (s.Delete key) rest
  | Signal.shutdown :: _ => s

/-- One atomic step on the storage: a caller's `Set`, `Get` or `Delete`, or the
worker receiving `key` and deleting it. -/
inductive Op (α : Type) where
  | set (key : String) (value : Value α) (ttl : Int) : Op α
  | get (key : String) : Op α
  | delete (key : String) : Op α
  | reclaim (key : String) : Op α
  deriving DecidableEq, Repr

/-- Is the step a `Set` on `key`? -/
def Op.setsKey {α : Type} (key : String) : Op α → Bool
  | Op.set k _ _ => decide (k = key)
  | _ => false

/-- Is the step a removal of `key` (a `Delete`, or the worker deleting it)? -/
def Op.removesKey {α : Type} (key : String) : Op α → Bool
  | Op.delete k => decide (k = key)
  | Op.reclaim k => decide (k = key)
  | _ => false

/-- The storage after one step taken when the clock reads `now`. -/
def step {α : Type} (s : KeyValueStorage α) (now : Int) : Op α → KeyValueStorage α
  | Op.set key value ttl => s.Set now key value ttl
  | Op.get key => (s.Get now key).store
  | Op.delete key => s.Delete key
  | Op.reclaim key => startCleanupRoutine s [Signal.cleanup key]

/-- The storage after a sequence of steps, each with its own clock reading. -/
def run {α : Type} (s : KeyValueStorage α) : List (Int × Op α) → KeyValueStorage α
  | [] => s
  | (now, op) :: rest => run (step s now op) rest

/-- Arguments of one set-expire-read-reclaim round: the value and ttl given to
`Set`, the clock reading at the `Set` and the clock reading at the `Get`. -/
structure Round (α : Type) where
  value : Value α
  ttl : Int
  setAt : Int
  getAt : Int
  deriving DecidableEq, Repr

/-- Does the `Get` of the round come after the expiration instant recorded by
its `Set`? -/
def Round.expires {α : Type} (c : Round α) : Bool :=
  decide (0 < c.ttl) && decide (c.setAt + c.ttl < c.getAt)

/-- One set-expire-read-reclaim round on `key`: `Set` at `setAt`, `Get` at
`getAt`, then the worker consumes whatever that `Get` sent. -/
def expireCycle {α : Type} (key : String) (s : KeyValueStorage α)
    (c : Round α) : KeyValueStorage α :=
  let r := (s.Set c.setAt key c.value c.ttl).Get c.getAt key
  match r.sent with
  | some k => startCleanupRoutine r.store [Signal.cleanup k]
  | none => r.store

/-- Control state of the worker goroutine: inside its loop, or returned. -/
inductive WorkerState where
  | Running : WorkerState
  | Stopped : WorkerState
  deriving DecidableEq, Repr

/-- One pass of the worker through its `select`, with the control state made
explicit: a running worker deletes a received key and stays in the loop, or
receives the shutdown value and returns; a returned worker receives nothing. -/
def workerStep {α : Type} (w : WorkerState × KeyValueStorage α) (sig : Signal) :
    WorkerState × KeyValueStorage α :=
  match w.1 with
  | WorkerState.Stopped => w
  | WorkerState.Running =>
    match sig with
    | Signal.cleanup key => (WorkerState.Running, w.2.Delete key)
    | Signal.shutdown => (WorkerState.Stopped, w.2)

/-- The worker started by `NewKeyValueStorage`, fed a sequence of signals. -/
def workerRun {α : Type} (s : KeyValueStorage α) (sigs : List Signal) :
    WorkerState × KeyValueStorage α :=
  sigs.foldl workerStep (WorkerState.Running, s)

/-- The keys of the removal signals that come before the first shutdown signal. -/
def keysBeforeShutdown : List Signal → List String
  | [] => []
  | Signal.cleanup key :: rest => key :: keysBeforeShutdown rest
  | Signal.shutdown :: _ => []

/-! ### Goroutines, the read/write lock and the unbuffered channel

For the claims about concurrent reads the lock and the hand-off are made
explicit: each goroutine has a program point, `readers` counts the read locks
held, and one `Action` is one atomic step of one goroutine. -/

/-- Program point of a goroutine executing `Get`: before `s.mutex.RLock()`;
holding the read lock and blocked in `s.cleanup <- key`; holding the read lock
with the deferred `RUnlock` still to run; returned. -/
inductive GetPc (α : Type) where
  | start : GetPc α
  | sending (key : String) : GetPc α
  | returning (value : Value α) : GetPc α
  | done (value : Value α) : GetPc α
  deriving DecidableEq, Repr

/-- Program point of the worker: blocked in `select`; holding a received key
with `s.Delete(key)` still to be called; inside `s.mutex.Lock()` of that
`Delete`, waiting for the readers to leave. -/
inductive WorkerPc where
  | selecting : WorkerPc
  | received (key : String) : WorkerPc
  | lockWait (key : String) : WorkerPc
  deriving DecidableEq, Repr

/-- The storage together with its lock and the goroutines using it: the
mappings, the number of read locks held, the worker, and for each caller of
`Get` the key it reads and its program point. -/
structure Sys (α : Type) where
  store : KeyValueStorage α
  readers : Nat
  worker : WorkerPc
  getters : List (String × GetPc α)
  deriving DecidableEq, Repr

/-- One atomic step of one goroutine: caller `i` takes the read lock and
reads both maps at clock reading `now`; the send of caller `i` meets the
receive of the worker; caller `i` runs its deferred `RUnlock` and returns; the
worker calls `Delete` and enters `Lock`; the worker is granted the lock,
deletes, unlocks and goes back to `select`. -/
inductive Action where
  | rlock (i : Nat) (now : Int) : Action
  | handoff (i : Nat) : Action
  | runlock (i : Nat) : Action
  | callLock : Action
  | lockGranted : Action
  deriving DecidableEq, Repr

/-- The state after an action, or `none` when the action cannot be taken: a
read lock is not granted while a writer waits in `Lock`; a send on the
unbuffered channel completes only while the worker is in `select`; `Lock` is
granted only when no read lock is held. -/
def sysStep {α : Type} (c : Sys α) : Action → Option (Sys α)
  | Action.rlock i now =>
    match c.getters[i]?, c.worker with
    | some (_, GetPc.start), WorkerPc.lockWait _ => none
    | some (key, GetPc.start), _ =>
      let r := c.store.Get now key
      let pc : GetPc α :=
        match r.sent with
        | some k => GetPc.sending k
        | none => GetPc.returning r.value
      some { store := c.store, readers := c.readers + 1, worker := c.worker,
             getters := c.getters.set i (key, pc) }
    | _, _ => none
  | Action.handoff i =>
    match c.getters[i]?, c.worker with
    | some (key, GetPc.sending k), WorkerPc.selecting =>
      some { store := c.store, readers := c.readers, worker := WorkerPc.received k,
             getters := c.getters.set i (key, GetPc.returning Value.nil) }
    | _, _ => none
  | Action.runlock i =>
    match c.getters[i]? with
    | some (key, GetPc.returning v) =>
      some { store := c.store, readers := c.readers - 1, worker := c.worker,
             getters := c.getters.set i (key, GetPc.done v) }
    | _ => none
  | Action.callLock =>
    match c.worker with
    | WorkerPc.received k =>
      some { store := c.store, readers := c.readers, worker := WorkerPc.lockWait k,
             getters := c.getters }
    | _ => none
  | Action.lockGranted =>
    match c.worker with
    | WorkerPc.lockWait k =>
      if c.readers = 0 then
        some { store := c.store.Delete k, readers := c.readers,
               worker := WorkerPc.selecting, getters := c.getters }
      else none
    | _ => none

/-- The state after a sequence of actions, `none` if one of them cannot be
taken. -/
def sysRun {α : Type} (c : Sys α) : List Action → Option (Sys α)
  | [] => some c
  | a :: rest =>
    match sysStep c a with
    | some next => sysRun next rest
    | none => none

/-- Two callers about to `Get` the key "k", stored at time 0 with ttl 5, while
the worker waits in `select`. -/
def twoReaders : Sys String :=
  { store := (NewKeyValueStorage : KeyValueStorage String).Set 0 "k" (Value.val "v") 5,
    readers := 0,
    worker := WorkerPc.selecting,
    getters := [("k", GetPc.start), ("k", GetPc.start)] }

/-- The first caller has returned nil, the second holds the read lock and is
blocked in its send, the worker is blocked in `Lock`. -/
def twoReadersStuck : Sys String :=
  { store := (NewKeyValueStorage : KeyValueStorage String).Set 0 "k" (Value.val "v") 5,
    readers := 1,
    worker := WorkerPc.lockWait "k",
    getters := [("k", GetPc.done Value.nil), ("k", GetPc.sending "k")] }

/-! ## Facts about the association lists -/

theorem mapLookup_mapDelete_self {β : Type} (m : GoMap β) (key : String) :
    mapLookup (mapDelete m key) key = none := by
  induction m with
  | nil => rfl
  | cons e rest ih =>
    obtain ⟨k, v⟩ := e
    by_cases h : k = key
    · simpa [mapDelete, h] using ih
    · simpa [mapDelete, mapLookup, h] using ih

theorem mapLookup_mapDelete_ne {β : Type} (m : GoMap β) {key other : String}
    (hne : key ≠ other) : mapLookup (mapDelete m key) other = mapLookup m other := by
  induction m with
  | nil => rfl
  | cons e rest ih =>
    obtain ⟨k, v⟩ := e
    by_cases h : k = key
    · subst h
      simpa [mapDelete, mapLookup, hne] using ih
    · by_cases h2 : k = other
      · subst h2
        simp [mapDelete, mapLookup, h]
      · simpa [mapDelete, mapLookup, h, h2] using ih

theorem mapLookup_mapStore_self {β : Type} (m : GoMap β) (key : String) (v : β) :
    mapLookup (mapStore m key v) key = some v := by
  simp [mapStore, mapLookup]

theorem mapLookup_mapStore_ne {β : Type} (m : GoMap β) {key other : String} (v : β)
    (hne : key ≠ other) : mapLookup (mapStore m key v) other = mapLookup m other := by
  simp [mapStore, mapLookup, hne, mapLookup_mapDelete_ne m hne]

theorem mapDelete_of_lookup_none {β : Type} (m : GoMap β) (key : String)
    (h : mapLookup m key = none) : mapDelete m key = m := by
  induction m with
  | nil => rfl
  | cons e rest ih =>
    obtain ⟨k, v⟩ := e
    by_cases hk : k = key
    · simp [mapLookup, hk] at h
    · simp only [mapLookup, hk, if_false] at h
      simp [mapDelete, hk, ih h]

theorem mapDelete_idem {β : Type} (m : GoMap β) (key : String) :
    mapDelete (mapDelete m key) key = mapDelete m key :=
  mapDelete_of_lookup_none _ _ (mapLookup_mapDelete_self m key)

theorem mapLen_mapDelete_le {β : Type} (m : GoMap β) (key : String) :
    mapLen (mapDelete m key) ≤ mapLen m := by
  induction m with
  | nil => simp [mapDelete]
  | cons e rest ih =>
    obtain ⟨k, v⟩ := e
    by_cases hk : k = key
    · simp only [mapDelete, hk, if_true, mapLen, List.length_cons] at ih ⊢
      omega
    · simp only [mapDelete, hk, if_false, mapLen, List.length_cons] at ih ⊢
      omega

/-! ## Facts about the three methods -/

section Methods

variable {α : Type}

theorem Set_data_self (s : KeyValueStorage α) (now : Int) (key : String)
    (value : Value α) (ttl : Int) :
    mapLookup (s.Set now key value ttl).data key = some value := by
  unfold KeyValueStorage.Set
  split_ifs <;> exact mapLookup_mapStore_self _ _ _

theorem Set_data_ne (s : KeyValueStorage α) (now : Int) {key other : String}
    (value : Value α) (ttl : Int) (hne : key ≠ other) :
    mapLookup (s.Set now key value ttl).data other = mapLookup s.data other := by
  unfold KeyValueStorage.Set
  split_ifs <;> exact mapLookup_mapStore_ne _ _ hne

theorem Set_expiry_self_pos (s : KeyValueStorage α) (now : Int) (key : String)
    (value : Value α) {ttl : Int} (hpos : 0 < ttl) :
    mapLookup (s.Set now key value ttl).expiry key = some (now + ttl) := by
  unfold KeyValueStorage.Set
  rw [if_pos hpos]
  exact mapLookup_mapStore_self _ _ _

theorem Set_expiry_nonpos (s : KeyValueStorage α) (now : Int) (key : String)
    (value : Value α) {ttl : Int} (hle : ttl ≤ 0) :
    (s.Set now key value ttl).expiry = s.expiry := by
  unfold KeyValueStorage.Set
  rw [if_neg (by omega)]

theorem Set_expiry_ne (s : KeyValueStorage α) (now : Int) {key other : String}
    (value : Value α) (ttl : Int) (hne : key ≠ other) :
    mapLookup (s.Set now key value ttl).expiry other = mapLookup s.expiry other := by
  unfold KeyValueStorage.Set
  split_ifs
  · exact mapLookup_mapStore_ne _ _ hne
  · rfl

theorem Get_store (s : KeyValueStorage α) (now : Int) (key : String) :
    (s.Get now key).store = s := by
  unfold KeyValueStorage.Get
  cases mapLookup s.data key with
  | none => rfl
  | some value =>
    cases mapLookup s.expiry key with
    | none => rfl
    | some e =>
      by_cases h : e < now
      · simp [h]
      · simp [h]

theorem Get_absent (s : KeyValueStorage α) (now : Int) {key : String}
    (h : mapLookup s.data key = none) :
    s.Get now key = { value := Value.nil, sent := none, store := s } := by
  simp [KeyValueStorage.Get, h]

theorem Get_expired (s : KeyValueStorage α) {now : Int} {key : String}
    {value : Value α} {e : Int} (hd : mapLookup s.data key = some value)
    (he : mapLookup s.expiry key = some e) (hlt : e < now) :
    s.Get now key = { value := Value.nil, sent := some key, store := s } := by
  simp [KeyValueStorage.Get, hd, he, hlt]

theorem Get_live (s : KeyValueStorage α) {now : Int} {key : String}
    {value : Value α} {e : Int} (hd : mapLookup s.data key = some value)
    (he : mapLookup s.expiry key = some e) (hge : now ≤ e) :
    s.Get now key = { value := value, sent := none, store := s } := by
  have : ¬ e < now := by omega
  simp [KeyValueStorage.Get, hd, he, this]

theorem Get_no_expiry (s : KeyValueStorage α) (now : Int) {key : String}
    {value : Value α} (hd : mapLookup s.data key = some value)
    (he : mapLookup s.expiry key = none) :
    s.Get now key = { value := value, sent := none, store := s } := by
  simp [KeyValueStorage.Get, hd, he]

theorem Delete_data_self (s : KeyValueStorage α) (key : String) :
    mapLookup (s.Delete key).data key = none :=
  mapLookup_mapDelete_self _ _

theorem Delete_expiry_self (s : KeyValueStorage α) (key : String) :
    mapLookup (s.Delete key).expiry key = none :=
  mapLookup_mapDelete_self _ _

theorem Delete_data_ne (s : KeyValueStorage α) {key other : String} (hne : key ≠ other) :
    mapLookup (s.Delete key).data other = mapLookup s.data other :=
  mapLookup_mapDelete_ne _ hne

theorem Delete_expiry_ne (s : KeyValueStorage α) {key other : String} (hne : key ≠ other) :
    mapLookup (s.Delete key).expiry other = mapLookup s.expiry other :=
  mapLookup_mapDelete_ne _ hne

theorem startCleanupRoutine_one (s : KeyValueStorage α) (key : String) :
    startCleanupRoutine s [Signal.cleanup key] = s.Delete key := rfl

/-- A step that is not a `Set` on `key` either leaves both entries of `key`
as they were or leaves `key` in neither mapping. -/
theorem step_frame (s : KeyValueStorage α) (now : Int) (op : Op α) (key : String)
    (hset : op.setsKey key = false) :
    (mapLookup (step s now op).data key = mapLookup s.data key ∧
      mapLookup (step s now op).expiry key = mapLookup s.expiry key) ∨
    (mapLookup (step s now op).data key = none ∧
      mapLookup (step s now op).expiry key = none) := by
  cases op with
  | set k value ttl =>
    have hne : k ≠ key := by simpa [Op.setsKey] using hset
    exact Or.inl ⟨Set_data_ne s now value ttl hne, Set_expiry_ne s now value ttl hne⟩
  | get k =>
    left
    simp [step, Get_store]
  | delete k =>
    by_cases hk : k = key
    · subst hk
      exact Or.inr ⟨Delete_data_self s k, Delete_expiry_self s k⟩
    · exact Or.inl ⟨Delete_data_ne s hk, Delete_expiry_ne s hk⟩
  | reclaim k =>
    by_cases hk : k = key
    · subst hk
      exact Or.inr ⟨Delete_data_self s k, Delete_expiry_self s k⟩
    · exact Or.inl ⟨Delete_data_ne s hk, Delete_expiry_ne s hk⟩

/-- A step that neither sets nor removes `key` leaves both entries of `key`. -/
theorem step_untouched (s : KeyValueStorage α) (now : Int) (op : Op α) (key : String)
    (hset : op.setsKey key = false) (hrem : op.removesKey key = false) :
    mapLookup (step s now op).data key = mapLookup s.data key ∧
      mapLookup (step s now op).expiry key = mapLookup s.expiry key := by
  cases op with
  | set k value ttl =>
    have hne : k ≠ key := by simpa [Op.setsKey] using hset
    exact ⟨Set_data_ne s now value ttl hne, Set_expiry_ne s now value ttl hne⟩
  | get k => simp [step, Get_store]
  | delete k =>
    have hne : k ≠ key := by simpa [Op.removesKey] using hrem
    exact ⟨Delete_data_ne s hne, Delete_expiry_ne s hne⟩
  | reclaim k =>
    have hne : k ≠ key := by simpa [Op.removesKey] using hrem
    exact ⟨Delete_data_ne s hne, Delete_expiry_ne s hne⟩

theorem run_untouched (key : String) (ops : List (Int × Op α)) :
    ∀ s : KeyValueStorage α,
      (∀ p ∈ ops, p.2.setsKey key = false ∧ p.2.removesKey key = false) →
      mapLookup (run s ops).data key = mapLookup s.data key ∧
        mapLookup (run s ops).expiry key = mapLookup s.expiry key := by
  induction ops with
  | nil => intro s _; exact ⟨rfl, rfl⟩
  | cons p rest ih =>
    intro s h
    obtain ⟨now, op⟩ := p
    have hp := h (now, op) (List.mem_cons_self _ _)
    have hstep := step_untouched s now op key hp.1 hp.2
    have hrest := ih (step s now op) (fun q hq => h q (List.mem_cons_of_mem _ hq))
    exact ⟨hrest.1.trans hstep.1, hrest.2.trans hstep.2⟩

theorem run_frame (key : String) (ops : List (Int × Op α)) :
    ∀ s : KeyValueStorage α,
      (∀ p ∈ ops, p.2.setsKey key = false) →
      (mapLookup (run s ops).data key = mapLookup s.data key ∧
        mapLookup (run s ops).expiry key = mapLookup s.expiry key) ∨
      (mapLookup (run s ops).data key = none ∧
        mapLookup (run s ops).expiry key = none) := by
  induction ops with
  | nil => intro s _; exact Or.inl ⟨rfl, rfl⟩
  | cons p rest ih =>
    intro s h
    obtain ⟨now, op⟩ := p
    have hp := h (now, op) (List.mem_cons_self _ _)
    have hrest := ih (step s now op) (fun q hq => h q (List.mem_cons_of_mem _ hq))
    rcases hrest with hsame | hgone
    · rcases step_frame s now op key hp with h1 | h1
      · exact Or.inl ⟨hsame.1.trans h1.1, hsame.2.trans h1.2⟩
      · exact Or.inr ⟨hsame.1.trans h1.1, hsame.2.trans h1.2⟩
    · exact Or.inr hgone

theorem run_absent (key : String) (ops : List (Int × Op α)) (s : KeyValueStorage α)
    (h : ∀ p ∈ ops, p.2.setsKey key = false)
    (hd : mapLookup s.data key = none) (he : mapLookup s.expiry key = none) :
    mapLookup (run s ops).data key = none ∧ mapLookup (run s ops).expiry key = none := by
  rcases run_frame key ops s h with hsame | hgone
  · exact ⟨hsame.1.trans hd, hsame.2.trans he⟩
  · exact hgone

theorem Delete_after_Set (s : KeyValueStorage α) (now : Int) (key : String)
    (value : Value α) {ttl : Int} (hpos : 0 < ttl) :
    (s.Set now key value ttl).Delete key = s.Delete key := by
  simp [KeyValueStorage.Set, KeyValueStorage.Delete, hpos, mapStore, mapDelete,
    mapDelete_idem]

/-- A round whose `Get` finds the entry expired ends in the storage that
`Delete(key)` gives. -/
theorem expireCycle_of_expires (key : String) (s : KeyValueStorage α) (c : Round α)
    (h : c.expires = true) : expireCycle key s c = s.Delete key := by
  have hc : 0 < c.ttl ∧ c.setAt + c.ttl < c.getAt := by
    simpa [Round.expires] using h
  have hget := Get_expired (s.Set c.setAt key c.value c.ttl)
    (Set_data_self s c.setAt key c.value c.ttl)
    (Set_expiry_self_pos s c.setAt key c.value hc.1) hc.2
  simp only [expireCycle, hget, startCleanupRoutine_one]
  exact Delete_after_Set s c.setAt key c.value hc.1

theorem mapLen_Delete_le (s : KeyValueStorage α) (key : String) :
    mapLen (s.Delete key).data ≤ mapLen s.data ∧
      mapLen (s.Delete key).expiry ≤ mapLen s.expiry :=
  ⟨mapLen_mapDelete_le _ _, mapLen_mapDelete_le _ _⟩

theorem foldl_expireCycle_le (key : String) (cycles : List (Round α)) :
    ∀ s : KeyValueStorage α, (∀ c ∈ cycles, c.expires = true) →
      mapLen (cycles.foldl (expireCycle key) s).data ≤ mapLen s.data ∧
        mapLen (cycles.foldl (expireCycle key) s).expiry ≤ mapLen s.expiry := by
  induction cycles with
  | nil => intro s _; exact ⟨le_refl _, le_refl _⟩
  | cons c rest ih =>
    intro s h
    have hc := h c (List.mem_cons_self _ _)
    have hrest := ih (expireCycle key s c) (fun d hd => h d (List.mem_cons_of_mem _ hd))
    have hdel := mapLen_Delete_le s key
    rw [expireCycle_of_expires key s c hc] at hrest
    rw [List.foldl_cons, expireCycle_of_expires key s c hc]
    exact ⟨hrest.1.trans hdel.1, hrest.2.trans hdel.2⟩

/-- The storage invariant: a key with a recorded expiration has a value. -/
theorem step_keeps_invariant (s : KeyValueStorage α) (now : Int) (op : Op α)
    (hinv : ∀ key e, mapLookup s.expiry key = some e → ∃ v, mapLookup s.data key = some v) :
    ∀ key e, mapLookup (step s now op).expiry key = some e →
      ∃ v, mapLookup (step s now op).data key = some v := by
  intro key e he
  by_cases hset : op.setsKey key = true
  · cases op with
    | set k value ttl =>
      have hk : k = key := by simpa [Op.setsKey] using hset
      subst hk
      exact ⟨value, Set_data_self s now k value ttl⟩
    | get k => simp [Op.setsKey] at hset
    | delete k => simp [Op.setsKey] at hset
    | reclaim k => simp [Op.setsKey] at hset
  · have hset2 : op.setsKey key = false := by simpa using hset
    rcases step_frame s now op key hset2 with hsame | hgone
    · rw [hsame.2] at he
      rw [hsame.1]
      exact hinv key e he
    · rw [hgone.2] at he
      cases he

theorem run_keeps_invariant (ops : List (Int × Op α)) :
    ∀ s : KeyValueStorage α,
      (∀ key e, mapLookup s.expiry key = some e → ∃ v, mapLookup s.data key = some v) →
      ∀ key e, mapLookup (run s ops).expiry key = some e →
        ∃ v, mapLookup (run s ops).data key = some v := by
  induction ops with
  | nil => intro s hinv; exact hinv
  | cons p rest ih =>
    intro s hinv
    obtain ⟨now, op⟩ := p
    exact ih (step s now op) (step_keeps_invariant s now op hinv)

/-- A `Get` that returned nil keeps returning nil at any later clock reading
on any storage whose entries for the key are the same or gone. -/
theorem Get_nil_mono (s u : KeyValueStorage α) (key : String) {t later : Int}
    (hle : t ≤ later) (hnil : (s.Get t key).value = Value.nil)
    (hu : (mapLookup u.data key = mapLookup s.data key ∧
        mapLookup u.expiry key = mapLookup s.expiry key) ∨
      (mapLookup u.data key = none ∧ mapLookup u.expiry key = none)) :
    (u.Get later key).value = Value.nil := by
  rcases hu with hsame | hgone
  · unfold KeyValueStorage.Get at hnil ⊢
    rw [hsame.1, hsame.2]
    cases hd : mapLookup s.data key with
    | none => rfl
    | some value =>
      rw [hd] at hnil
      cases he : mapLookup s.expiry key with
      | none =>
        rw [he] at hnil
        simpa using hnil
      | some e =>
        rw [he] at hnil
        by_cases h1 : e < later
        · simp [h1]
        · have h2 : ¬ e < t := by omega
          simpa [h1, h2] using hnil
  · rw [Get_absent u later hgone.1]

theorem workerStep_stopped (sigs : List Signal) (s : KeyValueStorage α) :
    sigs.foldl workerStep (WorkerState.Stopped, s) = (WorkerState.Stopped, s) := by
  induction sigs with
  | nil => rfl
  | cons sig rest ih => simpa [List.foldl_cons, workerStep] using ih

theorem workerRun_eq_loop (sigs : List Signal) :
    ∀ s : KeyValueStorage α, (workerRun s sigs).2 = startCleanupRoutine s sigs := by
  induction sigs with
  | nil => intro s; rfl
  | cons sig rest ih =>
    intro s
    cases sig with
    | cleanup key =>
      have h := ih (s.Delete key)
      simpa [workerRun, List.foldl_cons, workerStep, startCleanupRoutine] using h
    | shutdown =>
      simp [workerRun, List.foldl_cons, workerStep, startCleanupRoutine,
        workerStep_stopped]

theorem loop_eq_deletes (sigs : List Signal) :
    ∀ s : KeyValueStorage α,
      startCleanupRoutine s sigs =
        (keysBeforeShutdown sigs).foldl KeyValueStorage.Delete s := by
  induction sigs with
  | nil => intro s; rfl
  | cons sig rest ih =>
    intro s
    cases sig with
    | cleanup key =>
      simpa [startCleanupRoutine, keysBeforeShutdown, List.foldl_cons] using
        ih (s.Delete key)
    | shutdown => rfl

theorem workerRun_state (sigs : List Signal) :
    ∀ s : KeyValueStorage α,
      (workerRun s sigs).1 = WorkerState.Stopped ↔ Signal.shutdown ∈ sigs := by
  induction sigs with
  | nil => intro s; simp [workerRun]
  | cons sig rest ih =>
    intro s
    cases sig with
    | cleanup key =>
      have h := ih (s.Delete key)
      simpa [workerRun, List.foldl_cons, workerStep] using h
    | shutdown =>
      simp [workerRun, List.foldl_cons, workerStep, workerStep_stopped]

/-- After `Set(key, value, ttl)` with ttl > 0 at time t0 and any steps that
neither set nor remove `key` (no `Set`, no `Delete`, no worker removal of it),
`Get(key)` at any time before t0 + ttl returns `value` and sends nothing. -/
theorem Get_after_Set_untouched (s : KeyValueStorage α) (key : String) (value : Value α)
    (ttl t0 t1 : Int) (ops : List (Int × Op α)) (hpos : 0 < ttl) (hearly : t1 < t0 + ttl)
    (hops : ∀ p ∈ ops, p.2.setsKey key = false ∧ p.2.removesKey key = false) :
    (run (s.Set t0 key value ttl) ops).Get t1 key =
      { value := value, sent := none, store := run (s.Set t0 key value ttl) ops } := by
  have hsame := run_untouched key ops (s.Set t0 key value ttl) hops
  have hd := hsame.1.trans (Set_data_self s t0 key value ttl)
  have he := hsame.2.trans (Set_expiry_self_pos s t0 key value hpos)
  exact Get_live _ hd he (by omega)

end Methods

/-! ## The claims -/

section Claims

variable {α : Type}

/-- C1 (the code departs from the claim): on a new store, `Set("k","v1",1s)` at
time 0 followed by `Set("k","v2",0)` at time 0 leaves the expiration instant
recorded by the first call in place, so `Get("k")` at time 2s returns nil and
sends "k" to the worker, although the last `Set` had a zero ttl. -/
theorem C1_zero_ttl_set_keeps_recorded_expiry :
    mapLookup (((NewKeyValueStorage : KeyValueStorage String).Set 0 "k" (Value.val "v1")
        1000000000).Set 0 "k" (Value.val "v2") 0).expiry "k" = some 1000000000 ∧
    ((((NewKeyValueStorage : KeyValueStorage String).Set 0 "k" (Value.val "v1")
        1000000000).Set 0 "k" (Value.val "v2") 0).Get 2000000000 "k").value = Value.nil ∧
    ((((NewKeyValueStorage : KeyValueStorage String).Set 0 "k" (Value.val "v1")
        1000000000).Set 0 "k" (Value.val "v2") 0).Get 2000000000 "k").sent = some "k" := by
  decide

/-- C2 (counterexample): after `Set("k","v",5)` at time 0 the key is present
with expiration instant 5; at `now = 5` (expiration = now) `Get("k")` returns the
stored value and sends nothing, so it does not report not found. -/
theorem C2_counterexample_expiry_equal_now :
    mapLookup ((NewKeyValueStorage : KeyValueStorage String).Set 0 "k" (Value.val "v")
        5).data "k" = some (Value.val "v") ∧
    mapLookup ((NewKeyValueStorage : KeyValueStorage String).Set 0 "k" (Value.val "v")
        5).expiry "k" = some 5 ∧
    (5 : Int) ≤ 5 ∧
    (((NewKeyValueStorage : KeyValueStorage String).Set 0 "k" (Value.val "v") 5).Get 5
        "k").value = Value.val "v" ∧
    (((NewKeyValueStorage : KeyValueStorage String).Set 0 "k" (Value.val "v") 5).Get 5
        "k").sent = none ∧
    ¬ ((((NewKeyValueStorage : KeyValueStorage String).Set 0 "k" (Value.val "v") 5).Get 5
          "k").value = Value.nil ∧
        (((NewKeyValueStorage : KeyValueStorage String).Set 0 "k" (Value.val "v") 5).Get 5
          "k").sent = some "k") := by
  decide

/-- C2 (amended): if the key is present in the value mapping and its recorded
expiration instant is strictly before now, `Get(key)` returns nil, sends exactly
that key to the worker and leaves the storage as it was. -/
theorem C2_get_expired_strictly_before (s : KeyValueStorage α) (key : String) (now : Int)
    (value : Value α) (e : Int) (hd : mapLookup s.data key = some value)
    (he : mapLookup s.expiry key = some e) (hlt : e < now) :
    s.Get now key = { value := Value.nil, sent := some key, store := s } := by
  simp [KeyValueStorage.Get, hd, he, hlt]

/-- C2 (amended) at a concrete input: `Set("k","v",5)` at time 0, `Get("k")` at time 6. -/
theorem C2_get_expired_strictly_before_witness :
    mapLookup ((NewKeyValueStorage : KeyValueStorage String).Set 0 "k" (Value.val "v")
        5).data "k" = some (Value.val "v") ∧
    mapLookup ((NewKeyValueStorage : KeyValueStorage String).Set 0 "k" (Value.val "v")
        5).expiry "k" = some 5 ∧
    (5 : Int) < 6 ∧
    ((NewKeyValueStorage : KeyValueStorage String).Set 0 "k" (Value.val "v") 5).Get 6 "k" =
      { value := Value.nil, sent := some "k",
        store := (NewKeyValueStorage : KeyValueStorage String).Set 0 "k" (Value.val "v") 5 } :=
  ⟨by decide, by decide, by decide,
    C2_get_expired_strictly_before _ "k" 6 (Value.val "v") 5 (by decide) (by decide)
      (by decide)⟩

/-- C3: for every storage, key, value and ttl > 0, if `Set(key, value, ttl)` runs
at time t0 and is followed by any steps none of which is a `Set` on `key`
(each at any time), then `Get(key)` at any time t1 > t0 + ttl returns nil. -/
theorem C3_ttl_expiry (s : KeyValueStorage α) (key : String) (value : Value α)
    (ttl t0 t1 : Int) (ops : List (Int × Op α)) (hpos : 0 < ttl) (hlate : t0 + ttl < t1)
    (hops : ∀ p ∈ ops, p.2.setsKey key = false) :
    ((run (s.Set t0 key value ttl) ops).Get t1 key).value = Value.nil := by
  rcases run_frame key ops (s.Set t0 key value ttl) hops with hsame | hgone
  · have hd := hsame.1.trans (Set_data_self s t0 key value ttl)
    have he := hsame.2.trans (Set_expiry_self_pos s t0 key value hpos)
    rw [Get_expired _ hd he hlate]
  · rw [Get_absent _ t1 hgone.1]

/-- C3 at a concrete input: ttl = 100ms set at time 0, a `Get` and a `Set` on another key in between, `Get("k")` at 150ms. -/
theorem C3_ttl_expiry_witness :
    (0 : Int) < 100000000 ∧ (0 : Int) + 100000000 < 150000000 ∧
    ((run ((NewKeyValueStorage : KeyValueStorage String).Set 0 "k" (Value.val "v") 100000000)
      [(70000000, Op.get "k"), (80000000, Op.set "j" (Value.val "w") 0)]).Get 150000000
        "k").value = Value.nil :=
  ⟨by decide, by decide,
    C3_ttl_expiry _ "k" (Value.val "v") 100000000 0 150000000
      [(70000000, Op.get "k"), (80000000, Op.set "j" (Value.val "w") 0)]
      (by decide) (by decide) (by decide)⟩

/-- C4 (the code departs from the claim): "k" holds an entry whose expiration
instant 1 has passed; `Get("k")` at time 5 finds it expired and sends "k";
`Set("k","v",1s)` at time 7 writes a live entry with expiration 7 + 1s.  No
caller calls `Delete` or `Set` on "k" after that, but the worker consuming the
earlier signal at time 8 deletes the entry, so `Get("k")` at time 9, before
7 + 1s, returns nil instead of "v". -/
theorem C4_worker_removal_expires_prematurely :
    (((NewKeyValueStorage : KeyValueStorage String).Set 0 "k" (Value.val "old") 1).Get 5
      "k").sent = some "k" ∧
    (0 : Int) < 1000000000 ∧ (7 : Int) ≤ 9 ∧ (9 : Int) < 7 + 1000000000 ∧
    ((((NewKeyValueStorage : KeyValueStorage String).Set 0 "k" (Value.val "old") 1).Set 7
      "k" (Value.val "v") 1000000000).Get 8 "k").value = Value.val "v" ∧
    ((run (((NewKeyValueStorage : KeyValueStorage String).Set 0 "k" (Value.val "old") 1).Set
      7 "k" (Value.val "v") 1000000000) [(8, Op.reclaim "k")]).Get 9 "k").value =
      Value.nil ∧
    ¬ ((run (((NewKeyValueStorage : KeyValueStorage String).Set 0 "k" (Value.val "old")
        1).Set 7 "k" (Value.val "v") 1000000000) [(8, Op.reclaim "k")]).Get 9 "k" =
      { value := Value.val "v", sent := none,
        store := run (((NewKeyValueStorage : KeyValueStorage String).Set 0 "k"
          (Value.val "old") 1).Set 7 "k" (Value.val "v") 1000000000)
          [(8, Op.reclaim "k")] }) := by
  decide

/-- C5: for every storage, key and time, after `Delete(key)` the key is in
neither mapping, and `Get(key)` returns nil, sends nothing and leaves the
storage as it was. -/
theorem C5_explicit_delete (s : KeyValueStorage α) (key : String) (now : Int) :
    mapLookup (s.Delete key).data key = none ∧
    mapLookup (s.Delete key).expiry key = none ∧
    (s.Delete key).Get now key =
      { value := Value.nil, sent := none, store := s.Delete key } :=
  ⟨Delete_data_self s key, Delete_expiry_self s key,
    Get_absent _ now (Delete_data_self s key)⟩

/-- C6: for every storage and key, `Delete(key)` leaves the storage unchanged
when the key is in neither mapping, and `Delete(key)` applied twice gives the
same storage as `Delete(key)` applied once. -/
theorem C6_delete_noop_idempotent (s : KeyValueStorage α) (key : String) :
    (mapLookup s.data key = none → mapLookup s.expiry key = none → s.Delete key = s) ∧
    (s.Delete key).Delete key = s.Delete key := by
  constructor
  · intro hd he
    cases s with
    | mk data expiry =>
      simp only [KeyValueStorage.Delete] at hd he ⊢
      rw [mapDelete_of_lookup_none data key hd, mapDelete_of_lookup_none expiry key he]
  · simp [KeyValueStorage.Delete, mapDelete_idem]

/-- C6 at a concrete input: `Delete("missing")` on a new store. -/
theorem C6_delete_noop_idempotent_witness :
    (NewKeyValueStorage : KeyValueStorage String).Delete "missing" = NewKeyValueStorage :=
  (C6_delete_noop_idempotent (NewKeyValueStorage : KeyValueStorage String) "missing").1
    (by decide) (by decide)

/-- C7: for every storage, key and time, both mappings after `Get(key)` are the
ones before it; the call either sends nothing, or returns nil and sends `key`. -/
theorem C7_get_never_mutates (s : KeyValueStorage α) (key : String) (now : Int) :
    (s.Get now key).store.data = s.data ∧
    (s.Get now key).store.expiry = s.expiry ∧
    step s now (Op.get key) = s ∧
    ((s.Get now key).sent = none ∨
      ((s.Get now key).sent = some key ∧ (s.Get now key).value = Value.nil)) := by
  refine ⟨by rw [Get_store], by rw [Get_store], Get_store s now key, ?_⟩
  unfold KeyValueStorage.Get
  cases mapLookup s.data key with
  | none => exact Or.inl rfl
  | some value =>
    cases mapLookup s.expiry key with
    | none => exact Or.inl rfl
    | some e =>
      by_cases h : e < now
      · simp [h]
      · simp [h]

/-- C8: for every storage, key and time at which `Get(key)` sends `key` to the
worker (the entry is expired), after any steps without a `Set` on `key`, the
worker consuming that signal, and any further steps without a `Set` on `key`,
the key is in neither mapping and `Get(key)` at any time returns nil and sends
nothing; and over any number of set-expire-read-reclaim rounds on `key` the
number of entries of either mapping never exceeds the number before them. -/
theorem C8_lazy_cleanup (s : KeyValueStorage α) (key : String) :
    (∀ (now later : Int) (ops1 ops2 : List (Int × Op α)),
      (s.Get now key).value = Value.nil → (s.Get now key).sent = some key →
      (∀ p ∈ ops1, p.2.setsKey key = false) → (∀ p ∈ ops2, p.2.setsKey key = false) →
      mapLookup (run (startCleanupRoutine (run (s.Get now key).store ops1)
        [Signal.cleanup key]) ops2).data key = none ∧
      mapLookup (run (startCleanupRoutine (run (s.Get now key).store ops1)
        [Signal.cleanup key]) ops2).expiry key = none ∧
      (run (startCleanupRoutine (run (s.Get now key).store ops1)
        [Signal.cleanup key]) ops2).Get later key =
        { value := Value.nil, sent := none,
          store := run (startCleanupRoutine (run (s.Get now key).store ops1)
            [Signal.cleanup key]) ops2 }) ∧
    (∀ cycles : List (Round α), (∀ c ∈ cycles, c.expires = true) →
      mapLen (cycles.foldl (expireCycle key) s).data ≤ mapLen s.data ∧
      mapLen (cycles.foldl (expireCycle key) s).expiry ≤ mapLen s.expiry) := by
  refine ⟨?_, fun cycles h => foldl_expireCycle_le key cycles s h⟩
  intro now later ops1 ops2 _ _ _ h2
  have habs := run_absent key ops2
    (startCleanupRoutine (run (s.Get now key).store ops1) [Signal.cleanup key]) h2
    (Delete_data_self _ key) (Delete_expiry_self _ key)
  exact ⟨habs.1, habs.2, Get_absent _ later habs.1⟩

/-- C8 at a concrete input: `Set("k","v",5)` at time 0, expired `Get("k")` at time 9, worker removal, later `Get("k")` at time 12; and two expiring rounds on "k". -/
theorem C8_lazy_cleanup_witness :
    (mapLookup (run (startCleanupRoutine (run
        (((NewKeyValueStorage : KeyValueStorage String).Set 0 "k" (Value.val "v") 5).Get 9
          "k").store [(10, Op.get "k")]) [Signal.cleanup "k"])
        [(11, Op.set "j" (Value.val "w") 0)]).data "k" = none ∧
      mapLookup (run (startCleanupRoutine (run
        (((NewKeyValueStorage : KeyValueStorage String).Set 0 "k" (Value.val "v") 5).Get 9
          "k").store [(10, Op.get "k")]) [Signal.cleanup "k"])
        [(11, Op.set "j" (Value.val "w") 0)]).expiry "k" = none ∧
      (run (startCleanupRoutine (run
        (((NewKeyValueStorage : KeyValueStorage String).Set 0 "k" (Value.val "v") 5).Get 9
          "k").store [(10, Op.get "k")]) [Signal.cleanup "k"])
        [(11, Op.set "j" (Value.val "w") 0)]).Get 12 "k" =
        { value := Value.nil, sent := none,
          store := run (startCleanupRoutine (run
            (((NewKeyValueStorage : KeyValueStorage String).Set 0 "k" (Value.val "v") 5).Get 9
              "k").store [(10, Op.get "k")]) [Signal.cleanup "k"])
            [(11, Op.set "j" (Value.val "w") 0)] }) ∧
    (mapLen ((([{ value := Value.val "a", ttl := 5, setAt := 10, getAt := 20 },
          { value := Value.val "b", ttl := 3, setAt := 30, getAt := 40 }] :
          List (Round String)).foldl (expireCycle "k")
        ((NewKeyValueStorage : KeyValueStorage String).Set 0 "k" (Value.val "v") 5)).data) ≤
        mapLen ((NewKeyValueStorage : KeyValueStorage String).Set 0 "k" (Value.val "v")
          5).data ∧
      mapLen ((([{ value := Value.val "a", ttl := 5, setAt := 10, getAt := 20 },
          { value := Value.val "b", ttl := 3, setAt := 30, getAt := 40 }] :
          List (Round String)).foldl (expireCycle "k")
        ((NewKeyValueStorage : KeyValueStorage String).Set 0 "k" (Value.val "v") 5)).expiry) ≤
        mapLen ((NewKeyValueStorage : KeyValueStorage String).Set 0 "k" (Value.val "v")
          5).expiry) :=
  ⟨(C8_lazy_cleanup
      ((NewKeyValueStorage : KeyValueStorage String).Set 0 "k" (Value.val "v") 5) "k").1
      9 12 [(10, Op.get "k")] [(11, Op.set "j" (Value.val "w") 0)]
      (by decide) (by decide) (by decide) (by decide),
    (C8_lazy_cleanup
      ((NewKeyValueStorage : KeyValueStorage String).Set 0 "k" (Value.val "v") 5) "k").2
      [{ value := Value.val "a", ttl := 5, setAt := 10, getAt := 20 },
        { value := Value.val "b", ttl := 3, setAt := 30, getAt := 40 }] (by decide)⟩

/-- C9: in every storage reached from a new store by any sequence of `Set`,
`Get`, `Delete` and worker removal steps (each at any time), every key with a
recorded expiration instant also has a value. -/
theorem C9_expiry_keys_have_values (ops : List (Int × Op α)) (key : String) (e : Int)
    (he : mapLookup (run (NewKeyValueStorage : KeyValueStorage α) ops).expiry key = some e) :
    ∃ v, mapLookup (run (NewKeyValueStorage : KeyValueStorage α) ops).data key = some v := by
  refine run_keeps_invariant ops NewKeyValueStorage ?_ key e he
  intro k x hx
  simp [NewKeyValueStorage, mapLookup] at hx

/-- C9 at a concrete input: after four steps on a new store "k" has expiration 5 and a value. -/
theorem C9_expiry_keys_have_values_witness :
    mapLookup (run (NewKeyValueStorage : KeyValueStorage String)
      [(0, Op.set "k" (Value.val "v") 5), (1, Op.set "j" (Value.val "w") 0),
        (2, Op.delete "j"), (3, Op.get "k")]).expiry "k" = some 5 ∧
    ∃ v, mapLookup (run (NewKeyValueStorage : KeyValueStorage String)
      [(0, Op.set "k" (Value.val "v") 5), (1, Op.set "j" (Value.val "w") 0),
        (2, Op.delete "j"), (3, Op.get "k")]).data "k" = some v :=
  ⟨by decide,
    C9_expiry_keys_have_values
      [(0, Op.set "k" (Value.val "v") 5), (1, Op.set "j" (Value.val "w") 0),
        (2, Op.delete "j"), (3, Op.get "k")] "k" 5 (by decide)⟩

/-- C10: on a new store, for every key, value and times t0 and t1,
`Set(key, value, 0)` at t0 followed by `Get(key)` at t1 returns `value`, sends
nothing and leaves the storage as it was. -/
theorem C10_basic_set_get (key : String) (value : Value α) (t0 t1 : Int) :
    ((NewKeyValueStorage : KeyValueStorage α).Set t0 key value 0).Get t1 key =
      { value := value, sent := none,
        store := (NewKeyValueStorage : KeyValueStorage α).Set t0 key value 0 } := by
  apply Get_no_expiry _ t1 (Set_data_self _ t0 key value 0)
  rw [Set_expiry_nonpos _ t0 key value (le_refl 0)]
  rfl

/-- C11: on a new store, for every key, values v1, v2 and clock readings,
`Set(key, v1, 0)`, `Set(key, v2, 0)`, `Get(key)` returns v2 and sends nothing,
and the storage is the one a single `Set(key, v2, 0)` would have made: nothing
of v1 is kept. -/
theorem C11_overwrite (key : String) (v1 v2 : Value α) (t0 t1 t2 : Int) :
    (((NewKeyValueStorage : KeyValueStorage α).Set t0 key v1 0).Set t1 key v2 0).Get t2 key =
      { value := v2, sent := none,
        store := ((NewKeyValueStorage : KeyValueStorage α).Set t0 key v1 0).Set t1 key v2 0 } ∧
    ((NewKeyValueStorage : KeyValueStorage α).Set t0 key v1 0).Set t1 key v2 0 =
      (NewKeyValueStorage : KeyValueStorage α).Set t1 key v2 0 := by
  constructor
  · apply Get_no_expiry _ t2 (Set_data_self _ t1 key v2 0)
    rw [Set_expiry_nonpos _ t1 key v2 (le_refl 0), Set_expiry_nonpos _ t0 key v1 (le_refl 0)]
    rfl
  · simp [KeyValueStorage.Set, NewKeyValueStorage, mapStore, mapDelete]

/-- C12: for every storage in which the key has no value, and every time,
`Get(key)` returns nil, sends nothing and leaves the storage as it was, whatever
the expiration mapping holds (the same answer with any other expiration
mapping); in particular for every key of a new store. -/
theorem C12_get_absent (s : KeyValueStorage α) (key : String) (now : Int)
    (habs : mapLookup s.data key = none) :
    s.Get now key = { value := Value.nil, sent := none, store := s } ∧
    (∀ other : GoMap Int,
      (({ data := s.data, expiry := other } : KeyValueStorage α).Get now key).value =
          Value.nil ∧
        (({ data := s.data, expiry := other } : KeyValueStorage α).Get now key).sent =
          none) ∧
    (NewKeyValueStorage : KeyValueStorage α).Get now key =
      { value := Value.nil, sent := none, store := NewKeyValueStorage } := by
  refine ⟨Get_absent s now habs, fun other => ?_, Get_absent _ now rfl⟩
  have h := Get_absent ({ data := s.data, expiry := other } : KeyValueStorage α) now habs
  rw [h]
  exact ⟨rfl, rfl⟩

/-- C12 at a concrete input: "k" has no value although the expiration mapping
holds a passed instant for it. -/
theorem C12_get_absent_witness :
    ({ data := [("j", Value.val "w")], expiry := [("k", 1)] } : KeyValueStorage String).Get 9
        "k" =
      { value := Value.nil, sent := none,
        store := { data := [("j", Value.val "w")], expiry := [("k", 1)] } } :=
  (C12_get_absent
    ({ data := [("j", Value.val "w")], expiry := [("k", 1)] } : KeyValueStorage String)
    "k" 9 (by decide)).1

/-- C13: for every storage in which the key has a value and no recorded
expiration, `Get(key)` at every time returns the stored value, sends nothing and
leaves the storage as it was. -/
theorem C13_no_expiry_never_expires (s : KeyValueStorage α) (key : String)
    (value : Value α) (now : Int) (hd : mapLookup s.data key = some value)
    (he : mapLookup s.expiry key = none) :
    s.Get now key = { value := value, sent := none, store := s } := by
  simp [KeyValueStorage.Get, hd, he]

/-- C13 at a concrete input: a value stored with ttl 0 read at a very late time. -/
theorem C13_no_expiry_never_expires_witness :
    ((NewKeyValueStorage : KeyValueStorage String).Set 0 "k" (Value.val "v") 0).Get
        9000000000000000000 "k" =
      { value := Value.val "v", sent := none,
        store := (NewKeyValueStorage : KeyValueStorage String).Set 0 "k" (Value.val "v") 0 } :=
  C13_no_expiry_never_expires _ "k" (Value.val "v") 9000000000000000000 (by decide)
    (by decide)

/-- C14: on a new store, with `Set("key1","value1",5s)` at t0 and
`Set("key2","value2",10s)` at t0' >= t0, a `Get` at any time t < t0 + 5s returns
"value1" for key1 and "value2" for key2 and sends nothing; a `Get` at t0 + 6s
returns nil for key1 (sending "key1") and "value2" for key2, also after the
worker has removed key1. -/
theorem C14_driver_scenario (t0 t0' t : Int) (horder : t0 ≤ t0')
    (hearly : t < t0 + 5000000000) :
    (((NewKeyValueStorage : KeyValueStorage String).Set t0 "key1" (Value.val "value1")
        5000000000).Set t0' "key2" (Value.val "value2") 10000000000).Get t "key1" =
      { value := Value.val "value1", sent := none,
        store := ((NewKeyValueStorage : KeyValueStorage String).Set t0 "key1"
          (Value.val "value1") 5000000000).Set t0' "key2" (Value.val "value2") 10000000000 } ∧
    (((NewKeyValueStorage : KeyValueStorage String).Set t0 "key1" (Value.val "value1")
        5000000000).Set t0' "key2" (Value.val "value2") 10000000000).Get t "key2" =
      { value := Value.val "value2", sent := none,
        store := ((NewKeyValueStorage : KeyValueStorage String).Set t0 "key1"
          (Value.val "value1") 5000000000).Set t0' "key2" (Value.val "value2") 10000000000 } ∧
    (((NewKeyValueStorage : KeyValueStorage String).Set t0 "key1" (Value.val "value1")
        5000000000).Set t0' "key2" (Value.val "value2") 10000000000).Get (t0 + 6000000000)
        "key1" =
      { value := Value.nil, sent := some "key1",
        store := ((NewKeyValueStorage : KeyValueStorage String).Set t0 "key1"
          (Value.val "value1") 5000000000).Set t0' "key2" (Value.val "value2") 10000000000 } ∧
    ((((NewKeyValueStorage : KeyValueStorage String).Set t0 "key1" (Value.val "value1")
        5000000000).Set t0' "key2" (Value.val "value2") 10000000000).Get (t0 + 6000000000)
        "key2").value = Value.val "value2" ∧
    ((startCleanupRoutine (((NewKeyValueStorage : KeyValueStorage String).Set t0 "key1"
        (Value.val "value1") 5000000000).Set t0' "key2" (Value.val "value2") 10000000000)
        [Signal.cleanup "key1"]).Get (t0 + 6000000000) "key2").value =
      Value.val "value2" := by
  have hne : ("key2" : String) ≠ "key1" := by decide
  have hne2 : ("key1" : String) ≠ "key2" := by decide
  have hd1 : mapLookup (((NewKeyValueStorage : KeyValueStorage String).Set t0 "key1"
      (Value.val "value1") 5000000000).Set t0' "key2" (Value.val "value2")
      10000000000).data "key1" = some (Value.val "value1") :=
    (Set_data_ne _ t0' _ _ hne).trans (Set_data_self _ t0 _ _ _)
  have he1 : mapLookup (((NewKeyValueStorage : KeyValueStorage String).Set t0 "key1"
      (Value.val "value1") 5000000000).Set t0' "key2" (Value.val "value2")
      10000000000).expiry "key1" = some (t0 + 5000000000) :=
    (Set_expiry_ne _ t0' _ _ hne).trans (Set_expiry_self_pos _ t0 _ _ (by decide))
  have hd2 : mapLookup (((NewKeyValueStorage : KeyValueStorage String).Set t0 "key1"
      (Value.val "value1") 5000000000).Set t0' "key2" (Value.val "value2")
      10000000000).data "key2" = some (Value.val "value2") :=
    Set_data_self _ t0' _ _ _
  have he2 : mapLookup (((NewKeyValueStorage : KeyValueStorage String).Set t0 "key1"
      (Value.val "value1") 5000000000).Set t0' "key2" (Value.val "value2")
      10000000000).expiry "key2" = some (t0' + 10000000000) :=
    Set_expiry_self_pos _ t0' _ _ (by decide)
  refine ⟨Get_live _ hd1 he1 (by omega), Get_live _ hd2 he2 (by omega),
    Get_expired _ hd1 he1 (by omega), ?_, ?_⟩
  · rw [Get_live _ hd2 he2 (by omega)]
  · rw [startCleanupRoutine_one]
    have hd3 := (Delete_data_ne _ hne2).trans hd2
    have he3 := (Delete_expiry_ne _ hne2).trans he2
    rw [Get_live _ hd3 he3 (by omega)]

/-- C14 at a concrete input: both `Set` calls at time 0, the first reads at
time 1. -/
theorem C14_driver_scenario_witness :
    (0 : Int) ≤ 0 ∧ (1 : Int) < 0 + 5000000000 ∧
    (((NewKeyValueStorage : KeyValueStorage String).Set 0 "key1" (Value.val "value1")
        5000000000).Set 0 "key2" (Value.val "value2") 10000000000).Get 1 "key1" =
      { value := Value.val "value1", sent := none,
        store := ((NewKeyValueStorage : KeyValueStorage String).Set 0 "key1"
          (Value.val "value1") 5000000000).Set 0 "key2" (Value.val "value2") 10000000000 } ∧
    (((NewKeyValueStorage : KeyValueStorage String).Set 0 "key1" (Value.val "value1")
        5000000000).Set 0 "key2" (Value.val "value2") 10000000000).Get (0 + 6000000000)
        "key1" =
      { value := Value.nil, sent := some "key1",
        store := ((NewKeyValueStorage : KeyValueStorage String).Set 0 "key1"
          (Value.val "value1") 5000000000).Set 0 "key2" (Value.val "value2") 10000000000 } :=
  ⟨by decide, by decide, (C14_driver_scenario 0 0 1 (by decide) (by decide)).1,
    (C14_driver_scenario 0 0 1 (by decide) (by decide)).2.2.1⟩

/-- C15: the worker starts Running; while Running a removal signal for k changes
the storage exactly as `Delete(k)` and stays Running; a shutdown signal moves it
to Stopped; once Stopped no signal changes the state or the storage.  The
storage after any signal sequence is the one the source loop produces, which is
`Delete` applied in order to the keys before the first shutdown signal, and the
worker ends Stopped exactly when the sequence holds a shutdown signal. -/
theorem C15_worker_state_machine (s : KeyValueStorage α) (sigs : List Signal) :
    (workerRun s []).1 = WorkerState.Running ∧
    (∀ k : String, workerStep (WorkerState.Running, s) (Signal.cleanup k) =
      (WorkerState.Running, s.Delete k)) ∧
    workerStep (WorkerState.Running, s) Signal.shutdown = (WorkerState.Stopped, s) ∧
    (∀ sig : Signal, workerStep (WorkerState.Stopped, s) sig = (WorkerState.Stopped, s)) ∧
    sigs.foldl workerStep (WorkerState.Stopped, s) = (WorkerState.Stopped, s) ∧
    (workerRun s sigs).2 = startCleanupRoutine s sigs ∧
    (workerRun s sigs).2 = (keysBeforeShutdown sigs).foldl KeyValueStorage.Delete s ∧
    ((workerRun s sigs).1 = WorkerState.Stopped ↔ Signal.shutdown ∈ sigs) :=
  ⟨rfl, fun _ => rfl, rfl, fun _ => rfl, workerStep_stopped sigs s,
    workerRun_eq_loop sigs s, (workerRun_eq_loop sigs s).trans (loop_eq_deletes sigs s),
    workerRun_state sigs s⟩

/-- C16 (the code departs from the claim): two callers read the expired key "k"
at time 9 while the worker is running.  Both take the read lock and find the
entry expired; the first hands its key to the worker and returns nil; the
worker calls `Delete` and waits in `Lock` for the read lock of the second
caller, which is blocked in its send because the worker is no longer in
`select`.  In that state no goroutine can take a step.  (When the second
caller starts only after the worker is back in `select`, both calls return.) -/
theorem C16_two_expired_reads_block_forever :
    sysRun twoReaders
        [Action.rlock 0 9, Action.rlock 1 9, Action.handoff 0, Action.runlock 0,
          Action.callLock] = some twoReadersStuck ∧
    (∀ a : Action, sysStep twoReadersStuck a = none) ∧
    twoReadersStuck.getters[1]? = some ("k", GetPc.sending "k") ∧
    twoReadersStuck.worker = WorkerPc.lockWait "k" ∧
    sysRun twoReaders
        [Action.rlock 0 9, Action.handoff 0, Action.runlock 0, Action.callLock,
          Action.lockGranted, Action.rlock 1 9, Action.runlock 1] =
      some { store := ((NewKeyValueStorage : KeyValueStorage String).Set 0 "k"
               (Value.val "v") 5).Delete "k",
             readers := 0,
             worker := WorkerPc.selecting,
             getters := [("k", GetPc.done Value.nil), ("k", GetPc.done Value.nil)] } := by
  refine ⟨by decide, ?_, by decide, by decide, by decide⟩
  intro a
  cases a with
  | rlock i now =>
    rcases i with _ | _ | i <;> simp [sysStep, twoReadersStuck]
  | handoff i =>
    rcases i with _ | _ | i <;> simp [sysStep, twoReadersStuck]
  | runlock i =>
    rcases i with _ | _ | i <;> simp [sysStep, twoReadersStuck]
  | callLock => simp [sysStep, twoReadersStuck]
  | lockGranted => simp [sysStep, twoReadersStuck]

/-- C17 (the code departs from the claim): `Set("k","v1",5)` at time 0; `Get("k")`
at time 9 finds the entry expired and sends "k"; `Set("k","v2",100)` at time 10
writes a live entry (expiration 110); the worker consuming the signal at time
11 deletes that live entry, so `Get("k")` at time 12 returns nil. -/
theorem C17_worker_removes_live_entry :
    (((NewKeyValueStorage : KeyValueStorage String).Set 0 "k" (Value.val "v1") 5).Get 9
      "k").sent = some "k" ∧
    mapLookup (run (NewKeyValueStorage : KeyValueStorage String)
      [(0, Op.set "k" (Value.val "v1") 5), (9, Op.get "k"),
        (10, Op.set "k" (Value.val "v2") 100)]).data "k" = some (Value.val "v2") ∧
    mapLookup (run (NewKeyValueStorage : KeyValueStorage String)
      [(0, Op.set "k" (Value.val "v1") 5), (9, Op.get "k"),
        (10, Op.set "k" (Value.val "v2") 100)]).expiry "k" = some 110 ∧
    ((run (NewKeyValueStorage : KeyValueStorage String)
      [(0, Op.set "k" (Value.val "v1") 5), (9, Op.get "k"),
        (10, Op.set "k" (Value.val "v2") 100)]).Get 11 "k").value = Value.val "v2" ∧
    mapLookup (run (NewKeyValueStorage : KeyValueStorage String)
      [(0, Op.set "k" (Value.val "v1") 5), (9, Op.get "k"),
        (10, Op.set "k" (Value.val "v2") 100), (11, Op.reclaim "k")]).data "k" = none ∧
    ((run (NewKeyValueStorage : KeyValueStorage String)
      [(0, Op.set "k" (Value.val "v1") 5), (9, Op.get "k"),
        (10, Op.set "k" (Value.val "v2") 100), (11, Op.reclaim "k")]).Get 12
      "k").value = Value.nil := by
  decide

/-- The answer of `Get` depends only on the two entries of the key read. -/
theorem Get_congr (s u : KeyValueStorage α) (now : Int) (key : String)
    (hd : mapLookup u.data key = mapLookup s.data key)
    (he : mapLookup u.expiry key = mapLookup s.expiry key) :
    (u.Get now key).value = (s.Get now key).value ∧
      (u.Get now key).sent = (s.Get now key).sent := by
  unfold KeyValueStorage.Get
  rw [hd, he]
  cases mapLookup s.data key with
  | none => exact ⟨rfl, rfl⟩
  | some value =>
    cases mapLookup s.expiry key with
    | none => exact ⟨rfl, rfl⟩
    | some e =>
      by_cases h : e < now
      · simp [h]
      · simp [h]

/-- C18: for every storage, distinct keys k and other, value, ttl and times,
neither `Set(k, value, ttl)` nor `Delete(k)` changes the value entry or the
expiration entry of `other`, and `Get(other)` at the same time returns the same
value and sends the same signal (or none) before and after the write. -/
theorem C18_writes_local_to_key (s : KeyValueStorage α) (k other : String)
    (value : Value α) (ttl now t : Int) (hne : k ≠ other) :
    mapLookup (s.Set now k value ttl).data other = mapLookup s.data other ∧
    mapLookup (s.Set now k value ttl).expiry other = mapLookup s.expiry other ∧
    mapLookup (s.Delete k).data other = mapLookup s.data other ∧
    mapLookup (s.Delete k).expiry other = mapLookup s.expiry other ∧
    ((s.Set now k value ttl).Get t other).value = (s.Get t other).value ∧
    ((s.Set now k value ttl).Get t other).sent = (s.Get t other).sent ∧
    ((s.Delete k).Get t other).value = (s.Get t other).value ∧
    ((s.Delete k).Get t other).sent = (s.Get t other).sent := by
  have h1 := Set_data_ne s now value ttl hne
  have h2 := Set_expiry_ne s now value ttl hne
  have h3 := Delete_data_ne s hne
  have h4 := Delete_expiry_ne s hne
  have hs := Get_congr s (s.Set now k value ttl) t other h1 h2
  have hdel := Get_congr s (s.Delete k) t other h3 h4
  exact ⟨h1, h2, h3, h4, hs.1, hs.2, hdel.1, hdel.2⟩

/-- C18 at a concrete input: writes on "j" next to an expired entry of "k". -/
theorem C18_writes_local_to_key_witness :
    ("j" : String) ≠ "k" ∧
    ((((NewKeyValueStorage : KeyValueStorage String).Set 0 "k" (Value.val "v") 5).Set 7 "j"
        (Value.val "w") 3).Get 9 "k").sent =
      (((NewKeyValueStorage : KeyValueStorage String).Set 0 "k" (Value.val "v") 5).Get 9
        "k").sent ∧
    ((((NewKeyValueStorage : KeyValueStorage String).Set 0 "k" (Value.val "v") 5).Delete
        "j").Get 9 "k").value =
      (((NewKeyValueStorage : KeyValueStorage String).Set 0 "k" (Value.val "v") 5).Get 9
        "k").value :=
  ⟨by decide,
    (C18_writes_local_to_key
      ((NewKeyValueStorage : KeyValueStorage String).Set 0 "k" (Value.val "v") 5) "j" "k"
      (Value.val "w") 3 7 9 (by decide)).2.2.2.2.2.1,
    (C18_writes_local_to_key
      ((NewKeyValueStorage : KeyValueStorage String).Set 0 "k" (Value.val "v") 5) "j" "k"
      (Value.val "w") 3 7 9 (by decide)).2.2.2.2.2.2.1⟩

/-- C19: for every storage, key and times t <= later, if `Get(key)` at t returns
nil then `Get(key)` at `later` returns nil on the same storage, and also on the
storage reached by any steps (`Get`, `Delete`, worker removals, `Set` on other
keys, each at any time) none of which is a `Set` on the key. -/
theorem C19_expiry_monotone (s : KeyValueStorage α) (key : String) (t later : Int)
    (ops : List (Int × Op α)) (hle : t ≤ later)
    (hnil : (s.Get t key).value = Value.nil)
    (hops : ∀ p ∈ ops, p.2.setsKey key = false) :
    (s.Get later key).value = Value.nil ∧
    ((run s ops).Get later key).value = Value.nil :=
  ⟨Get_nil_mono s s key hle hnil (Or.inl ⟨rfl, rfl⟩),
    Get_nil_mono s (run s ops) key hle hnil (run_frame key ops s hops)⟩

/-- C19 at a concrete input: "k" expired at time 9 is still not readable at
time 20 after a `Get`, a worker removal and a `Set` on another key. -/
theorem C19_expiry_monotone_witness :
    (9 : Int) ≤ 20 ∧
    (((NewKeyValueStorage : KeyValueStorage String).Set 0 "k" (Value.val "v") 5).Get 9
      "k").value = Value.nil ∧
    (((NewKeyValueStorage : KeyValueStorage String).Set 0 "k" (Value.val "v") 5).Get 20
      "k").value = Value.nil ∧
    ((run ((NewKeyValueStorage : KeyValueStorage String).Set 0 "k" (Value.val "v") 5)
      [(10, Op.get "k"), (11, Op.reclaim "k"), (12, Op.set "j" (Value.val "w") 0)]).Get 20
      "k").value = Value.nil :=
  ⟨by decide, by decide,
    (C19_expiry_monotone
      ((NewKeyValueStorage : KeyValueStorage String).Set 0 "k" (Value.val "v") 5) "k" 9 20
      [(10, Op.get "k"), (11, Op.reclaim "k"), (12, Op.set "j" (Value.val "w") 0)]
      (by decide) (by decide) (by decide)).1,
    (C19_expiry_monotone
      ((NewKeyValueStorage : KeyValueStorage String).Set 0 "k" (Value.val "v") 5) "k" 9 20
      [(10, Op.get "k"), (11, Op.reclaim "k"), (12, Op.set "j" (Value.val "w") 0)]
      (by decide) (by decide) (by decide)).2⟩

end Claims

end KVStore
